import Mathlib

/-!
Verification of the guarded-query execution core of the mcp-servers
repository.  Strings are embedded as lists of characters; every definition
below is a direct translation of the corresponding TypeScript function.
-/

set_option maxRecDepth 10000

deriving instance DecidableEq for Except

/-- Strings from the source are embedded as lists of characters. -/
abbrev Str := List Char

/-- Characters matched by the JavaScript whitespace class used by
String.trim (ASCII part). -/
def isWsChar (c : Char) : Bool :=
  c = ' ' || c = '\t' || c = '\n' || c = '\r' || c.toNat = 11 || c.toNat = 12

/-- JavaScript String.trim: drop whitespace at both ends. -/
def trimStr (s : Str) : Str :=
  ((s.dropWhile isWsChar).reverse.dropWhile isWsChar).reverse

/-- ASCII uppercase of one character (JS toUpperCase on ASCII input). -/
def toUpperChar (c : Char) : Char :=
  if 97 ≤ c.toNat ∧ c.toNat ≤ 122 then Char.ofNat (c.toNat - 32) else c

/-- ASCII lowercase of one character (JS toLowerCase on ASCII input). -/
def toLowerChar (c : Char) : Char :=
  if 65 ≤ c.toNat ∧ c.toNat ≤ 90 then Char.ofNat (c.toNat + 32) else c

/-- Uppercase a string character by character. -/
def asciiUpper (s : Str) : Str := s.map toUpperChar

/-- Lowercase a string character by character. -/
def asciiLower (s : Str) : Str := s.map toLowerChar

/-- `hasPre p s` is JavaScript `s.startsWith(p)`. -/
def hasPre : Str → Str → Bool
  | [], _ => true
  | _ :: _, [] => false
  | a :: as, b :: bs => decide (a = b) && hasPre as bs

/-- `hasSubstr pat s` is JavaScript `s.includes(pat)`. -/
def hasSubstr (pat : Str) : Str → Bool
  | [] => hasPre pat []
  | c :: t => hasPre pat (c :: t) || hasSubstr pat t

theorem hasPre_iff (p s : Str) : hasPre p s = true ↔ ∃ t, s = p ++ t := by
  induction p generalizing s with
  | nil => simp [hasPre]
  | cons a as ih =>
    cases s with
    | nil => simp [hasPre]
    | cons b bs =>
      simp only [hasPre, Bool.and_eq_true, decide_eq_true_eq, ih, List.cons_append,
        List.cons.injEq]
      constructor
      · rintro ⟨rfl, t, rfl⟩; exact ⟨t, rfl, rfl⟩
      · rintro ⟨t, rfl, rfl⟩; exact ⟨rfl, t, rfl⟩

theorem hasSubstr_iff (pat s : Str) :
    hasSubstr pat s = true ↔ ∃ a b, s = a ++ pat ++ b := by
  induction s with
  | nil =>
    simp only [hasSubstr, hasPre_iff]
    constructor
    · rintro ⟨t, ht⟩
      exact ⟨[], t, by simpa using ht⟩
    · rintro ⟨a, b, h⟩
      have h2 := List.append_eq_nil.mp h.symm
      have h3 := List.append_eq_nil.mp h2.1
      exact ⟨[], by simp [h3.2]⟩
  | cons c t ih =>
    simp only [hasSubstr, Bool.or_eq_true, hasPre_iff, ih]
    constructor
    · rintro (⟨u, hu⟩ | ⟨a, b, h⟩)
      · exact ⟨[], u, by simpa using hu⟩
      · exact ⟨c :: a, b, by simp [h]⟩
    · rintro ⟨a, b, h⟩
      cases a with
      | nil => exact Or.inl ⟨b, by simpa using h⟩
      | cons a0 as =>
        simp only [List.cons_append, List.cons.injEq] at h
        exact Or.inr ⟨as, b, h.2⟩

/-! ## Path confinement resolver (filesystem-mcp) -/

/-- Split an absolute path on the separator character. -/
def splitSeg : Str → Str → List Str
  | [], acc => [acc.reverse]
  | c :: rest, acc =>
    if c = '/' then acc.reverse :: splitSeg rest [] else splitSeg rest (c :: acc)

/-- Segments of a path string. -/
def segmentsOf (s : Str) : List Str := splitSeg s []

/-- Collapse `.`, `..` and empty segments of an absolute path, the way
Node's path.posix normalization does. -/
def normSegs (segs : List Str) : List Str :=
  (segs.foldl
    (fun st seg =>
      if seg = [] then st
      else if seg = ['.'] then st
      else if seg = ['.', '.'] then st.tail
      else seg :: st) []).reverse

/-- Reassemble segments into an absolute path string. -/
def joinAbs : List Str → Str
  | [] => ['/']
  | segs => '/' :: List.intercalate ['/'] segs

/-- Canonicalize an absolute path: Node `path.resolve` applied to a single
absolute argument. -/
def normalizeAbs (s : Str) : Str := joinAbs (normSegs (segmentsOf s))

/-- Node `path.resolve(base, input)` for an absolute `base`. -/
def posixResolve (base input : Str) : Str :=
  match input with
  | '/' :: rest => normalizeAbs ('/' :: rest)
  | _ => normalizeAbs (base ++ '/' :: input)

/-- `inputPath.replace(/^~/, homedir())`: expand one leading tilde. -/
def expandTilde (home : Str) : Str → Str
  | '~' :: rest => home ++ rest
  | s => s

/-- The production `resolvePath` of src/servers/filesystem-mcp/src/index.ts
(lines 43-56): tilde expansion, resolution against the root, then the
naive string check `normalizedPath.startsWith(normalizedRoot)`. -/
def resolvePath (root home input : Str) : Except Str Str :=
  let expanded := expandTilde home input
  let resolved := posixResolve root expanded
  let normalizedRoot := normalizeAbs root
  let normalizedPath := normalizeAbs resolved
  if hasPre normalizedRoot normalizedPath then Except.ok normalizedPath
  else Except.error "Access denied: path is outside root directory".data

/-- The re-implementation of `resolvePath` in the repository's own test
suite (src/unnamed/part_001, lines 11-23), which claims to use the same
logic but performs the separator-aware boundary check
`startsWith(root + sep) || path == root`. -/
def resolvePathChecked (root home input : Str) : Except Str Str :=
  let expanded := expandTilde home input
  let resolved := posixResolve root expanded
  let normalizedRoot := normalizeAbs root
  let normalizedPath := normalizeAbs resolved
  if !(hasPre (normalizedRoot ++ ['/']) normalizedPath) && normalizedPath ≠ normalizedRoot then
    Except.error "Access denied: path is outside root directory".data
  else Except.ok normalizedPath

/-! ## Bounded content reader (filesystem-mcp) -/

/-- `isBinaryFile` of src/servers/filesystem-mcp/src/index.ts: a buffer is
binary when any of its first 8192 bytes is zero. -/
def isBinaryFile (buffer : List Nat) : Bool :=
  (buffer.take 8192).any (fun b => b = 0)

/-- The content field of a read result: either the literal marker string
the code returns for binary files, or the decoded bytes. -/
inductive ContentVal where
  | binaryMarker
  | text (bytes : List Nat)
deriving DecidableEq

/-- Byte length of the returned content: the marker string
`[Binary file]` has 13 characters. -/
def contentLen : ContentVal → Nat
  | ContentVal.binaryMarker => 13
  | ContentVal.text bs => bs.length

/-- Result shape of `readFileContent`. -/
structure ReadResult where
  content : ContentVal
  truncated : Bool
  binary : Bool
deriving DecidableEq

/-- `readFileContent` of src/servers/filesystem-mcp/src/index.ts
(lines 87-114), over the file's bytes: if the size exceeds the cap the
first `cap` bytes are read, binary detection is applied to what was read,
and a binary result always carries `truncated := false`. -/
def readFileContent (cap : Nat) (fileBytes : List Nat) : ReadResult :=
  if fileBytes.length > cap then
    let buffer := fileBytes.take cap
    if isBinaryFile buffer then
      { content := ContentVal.binaryMarker, truncated := false, binary := true }
    else
      { content := ContentVal.text buffer, truncated := true, binary := false }
  else
    if isBinaryFile fileBytes then
      { content := ContentVal.binaryMarker, truncated := false, binary := true }
    else
      { content := ContentVal.text fileBytes, truncated := false, binary := false }

/-! ## Identifier quoter (sqlite-mcp / postgres tests) -/

/-- `name.replace(/"/g, '""')`: double every double-quote character. -/
def escQ : Str → Str
  | [] => []
  | c :: t => if c = '"' then '"' :: '"' :: escQ t else c :: escQ t

/-- `quoteIdentifier` of src/servers/sqlite-mcp/src/index.ts (lines 79-82):
wrap in double quotes after doubling the inner ones. -/
def quoteIdentifier (name : Str) : Str :=
  '"' :: escQ name ++ ['"']

/-- Parser for the identifier-quoting grammar, after the opening quote:
a doubled quote stands for one literal quote, a single closing quote ends
the identifier and must end the string. -/
def parseQBody : Str → Option Str
  | [] => none
  | [c] => if c = '"' then some [] else none
  | c :: c2 :: rest =>
    if c = '"' then
      if c2 = '"' then (parseQBody rest).map (fun t => '"' :: t) else none
    else (parseQBody (c2 :: rest)).map (fun t => c :: t)

/-- Parser for the identifier-quoting grammar: opening double quote,
doubled-double-quote escapes, closing double quote. -/
def parseQuoted : Str → Option Str
  | '"' :: rest => parseQBody rest
  | _ => none

theorem parseQBody_escQ (s : Str) : parseQBody (escQ s ++ ['"']) = some s := by
  induction s with
  | nil => rfl
  | cons c t ih =>
    by_cases hc : c = '"'
    · subst hc
      simp [escQ, parseQBody, ih]
    · simp only [escQ, if_neg hc, List.cons_append]
      cases he : escQ t ++ ['"'] with
      | nil => exact absurd (List.append_eq_nil.mp he).2 (by simp)
      | cons x xs =>
        simp only [parseQBody, if_neg hc, ← he, ih]
        rfl

/-! ## Identifier validator (sqlite-mcp / postgres tests) -/

/-- Character class `[A-Z]`. -/
def isUpperA (c : Char) : Bool := decide (65 ≤ c.toNat ∧ c.toNat ≤ 90)

/-- Character class `[a-z]`. -/
def isLowerA (c : Char) : Bool := decide (97 ≤ c.toNat ∧ c.toNat ≤ 122)

/-- Character class `[0-9]`. -/
def isDigitA (c : Char) : Bool := decide (48 ≤ c.toNat ∧ c.toNat ≤ 57)

/-- Character class `[a-zA-Z_]`, the first character of the strict
identifier grammar. -/
def strictStart (c : Char) : Bool := isUpperA c || isLowerA c || decide (c.toNat = 95)

/-- Character class `[a-zA-Z0-9_]`, the continuation characters of the
strict identifier grammar. -/
def strictCont (c : Char) : Bool := strictStart c || isDigitA c

/-- Character class `[a-zA-Z0-9_ -]` of the looser grammar
(underscore 95, space 32, hyphen 45). -/
def looseChar (c : Char) : Bool :=
  isUpperA c || isLowerA c || isDigitA c ||
    decide (c.toNat = 95) || decide (c.toNat = 32) || decide (c.toNat = 45)

/-- Full-string match of `^[a-zA-Z_][a-zA-Z0-9_]*$`. -/
def strictId : Str → Bool
  | [] => false
  | c :: t => strictStart c && t.all strictCont

/-- Full-string match of `^[a-zA-Z0-9_ -]+$`. -/
def looseId (s : Str) : Bool :=
  !s.isEmpty && s.all looseChar

/-- `validateIdentifier` of src/servers/sqlite-mcp/src/index.ts
(lines 64-76): accept on the strict grammar, else accept on the looser
grammar, else fail naming the identifier kind. -/
def validateIdentifier (kind : Str) (name : Str) : Except Str Str :=
  if strictId name then Except.ok name
  else if looseId name then Except.ok name
  else Except.error ("Invalid ".data ++ kind ++ " name: contains disallowed characters".data)

/-- The characters the spec singles out as always rejected:
`; ' " ( ) / \` together with the ASCII control characters. -/
def forbiddenChar (c : Char) : Bool :=
  decide (c.toNat ∈ [59, 39, 34, 40, 41, 47, 92]) ||
    decide (c.toNat < 32) || decide (c.toNat = 127)

theorem forbiddenChar_not_allowed (c : Char) (h : forbiddenChar c = true) :
    strictCont c = false ∧ looseChar c = false := by
  simp only [forbiddenChar, strictCont, strictStart, looseChar, isUpperA, isLowerA, isDigitA,
    Bool.or_eq_true, decide_eq_true_eq, List.mem_cons, List.not_mem_nil, or_false] at h ⊢
  constructor
  · simp only [Bool.or_eq_false_iff, decide_eq_false_iff_not, not_and, not_le]
    omega
  · simp only [Bool.or_eq_false_iff, decide_eq_false_iff_not, not_and, not_le]
    omega

/-! ## Query policy gate (sqlite-mcp and postgres-mcp) -/

/-- `[A-Za-z0-9_]`: the word characters of the JavaScript regex class
used by the word-boundary assertion. -/
def isWordChar (c : Char) : Bool := strictCont c

/-- Case-insensitive character comparison (the regex `i` flag). -/
def ciEqChar (a b : Char) : Bool := toLowerChar a = toLowerChar b

/-- Case-insensitive starts-with. -/
def ciPre : Str → Str → Bool
  | [], _ => true
  | _ :: _, [] => false
  | a :: as, b :: bs => ciEqChar a b && ciPre as bs

/-- A word boundary holds against an adjacent character that is absent or
not a word character. -/
def boundaryOk : Option Char → Bool
  | none => true
  | some c => !isWordChar c

/-- Scanner for `new RegExp('\\b' + kw + '\\b', 'i').test(s)` for a
keyword made of word characters: some position of `s` starts a
case-insensitive copy of `kw` delimited by word boundaries. -/
def cwAux (kw : Str) : Option Char → Str → Bool
  | prev, [] => boundaryOk prev && ciPre kw []
  | prev, c :: t =>
    (boundaryOk prev && ciPre kw (c :: t) &&
      boundaryOk (List.head? (List.drop kw.length (c :: t)))) ||
    cwAux kw (some c) t

/-- `containsWord kw s`: the deny-list regex test of both SQL adapters. -/
def containsWord (kw s : Str) : Bool := cwAux kw none s

/-- Deny-list of src/servers/sqlite-mcp/src/index.ts `executeQuery`. -/
def dangerousSqlite : List Str :=
  ["INSERT".data, "UPDATE".data, "DELETE".data, "DROP".data, "ALTER".data, "CREATE".data,
   "ATTACH".data, "DETACH".data, "REPLACE".data, "TRUNCATE".data,
   "PRAGMA".data, "VACUUM".data, "REINDEX".data, "ANALYZE".data]

/-- Deny-list of the `pg_query` handler of
src/servers/postgres-mcp/src/index.ts. -/
def dangerousPg : List Str :=
  ["insert".data, "update".data, "delete".data, "drop".data, "alter".data, "create".data,
   "truncate".data, "grant".data, "revoke".data, "copy".data]

/-- `/;[\s]*\S/` second half: after skipping whitespace, a further
non-whitespace character exists. -/
def nonWsAfter : Str → Bool
  | [] => false
  | c :: t => if isWsChar c then nonWsAfter t else true

/-- `/;[\s]*\S/.test(sql)`: a semicolon followed by further non-whitespace
content. -/
def semiThenContent : Str → Bool
  | [] => false
  | c :: t => (decide (c = ';') && nonWsAfter t) || semiThenContent t

/-- The leading-keyword allow-list test of the sqlite gate: the trimmed,
upper-cased query starts with SELECT, WITH or EXPLAIN. -/
def sqliteStartAllowed (sql : Str) : Bool :=
  let upper := asciiUpper (trimStr sql)
  hasPre "SELECT".data upper || hasPre "WITH".data upper || hasPre "EXPLAIN".data upper

/-- The read-only gate of `executeQuery` in
src/servers/sqlite-mcp/src/index.ts (lines 141-172): allow-list prefix
check, deny-list whole-word scan of the original query, then the
multi-statement semicolon check. -/
def sqliteGate (sql : Str) : Except Str Unit :=
  if !sqliteStartAllowed sql then
    Except.error "Only SELECT, WITH, and EXPLAIN queries are allowed in read-only mode".data
  else
    match dangerousSqlite.find? (fun kw => containsWord kw sql) with
    | some kw => Except.error ("Query contains forbidden keyword: ".data ++ kw)
    | none =>
      if semiThenContent sql then Except.error "Multiple statements are not allowed".data
      else Except.ok ()

/-- The leading-keyword allow-list test of the pg gate: the trimmed,
lower-cased query starts with select or with. -/
def pgStartAllowed (query : Str) : Bool :=
  let trimmedQuery := asciiLower (trimStr query)
  hasPre "select".data trimmedQuery || hasPre "with".data trimmedQuery

/-- The read-only gate of the `pg_query` handler in
src/servers/postgres-mcp/src/index.ts (lines 218-248): deny-list
whole-word scan first, then the allow-list prefix check. -/
def pgGate (query : Str) : Except Str Unit :=
  match dangerousPg.find? (fun kw => containsWord kw query) with
  | some kw =>
    Except.error ("Error: Query contains forbidden keyword: ".data ++ asciiUpper kw)
  | none =>
    if !pgStartAllowed query then
      Except.error
        "Error: Only SELECT queries are allowed for safety. Use pg_describe_table for schema info.".data
    else Except.ok ()

/-! ## Result windower (sqlite-mcp executeQuery, lines 174-188) -/

/-- Shape of the sqlite `QueryResult` windowing fields. -/
structure QueryWindow (α : Type) where
  rows : List α
  rowCount : Nat
  truncated : Bool
deriving DecidableEq

/-- The windowing step of `executeQuery`:
`truncated = rows.length > MAX_ROWS`, `limitedRows = rows.slice(0, MAX_ROWS)`,
`rowCount = rows.length`. -/
def windowRows {α : Type} (cap : Nat) (rows : List α) : QueryWindow α :=
  { rows := rows.take cap
    rowCount := rows.length
    truncated := decide (rows.length > cap) }

/-! ## pg_query LIMIT appending (postgres-mcp, lines 250-254) -/

/-- The `safeQuery` computation of the `pg_query` handler: append
` LIMIT ${limit}` unless the lower-cased trimmed query contains the
substring `limit`. -/
def pgSafeQuery (query : Str) (lim : Nat) : Str :=
  let trimmedQuery := asciiLower (trimStr query)
  if !hasSubstr "limit".data trimmedQuery then
    query ++ " LIMIT ".data ++ (Nat.repr lim).data
  else query

/-! ## Tool-call boundary (error propagation, all adapters) -/

/-- A tool response: the payload on success, or the error text a handler
builds from a caught error. -/
inductive ToolOutcome (α : Type) where
  | success (payload : α)
  | errorText (msg : Str)
deriving DecidableEq

/-- The catch-all `try/catch` wrapping the tool-call handlers of the
sqlite and filesystem adapters: any error value becomes the payload
`Error: <message>`; nothing escapes. -/
def callBoundary {α : Type} (act : Except Str α) : ToolOutcome α :=
  match act with
  | Except.ok a => ToolOutcome.success a
  | Except.error m => ToolOutcome.errorText ("Error: ".data ++ m)

/-- `executeQuery` of src/servers/sqlite-mcp/src/index.ts: run the gate,
then the statement against the database (an oracle from query text to
rows or an engine error, the engine error being wrapped with
`Query failed: `), then window the rows. -/
def executeQuery (db : Str → Except Str (List (List Nat))) (cap : Nat) (sql : Str) :
    Except Str (QueryWindow (List Nat)) :=
  match sqliteGate sql with
  | Except.error m => Except.error m
  | Except.ok _ =>
    match db sql with
    | Except.error e => Except.error ("Query failed: ".data ++ e)
    | Except.ok rows => Except.ok (windowRows cap rows)

/-- The `query` tool of the sqlite adapter at the tool-call boundary
(lines 348-476): `executeQuery` inside the catch-all. -/
def runQueryTool (db : Str → Except Str (List (List Nat))) (cap : Nat) (sql : Str) :
    ToolOutcome (QueryWindow (List Nat)) :=
  callBoundary (executeQuery db cap sql)

/-- The `read_file` tool of the filesystem adapter at the tool-call
boundary (lines 550-553): path confinement, then the read (an oracle from
confined path to content or a resource error), inside the catch-all. -/
def runReadFileTool (oracle : Str → Except Str Str) (root home path : Str) :
    ToolOutcome Str :=
  callBoundary
    (match resolvePath root home path with
     | Except.error m => Except.error m
     | Except.ok fp => oracle fp)

/-- The `read_note` tool of the obsidian adapter (lines 420-525):
`readNote` returns no value for a missing note and the handler answers
with a `Note not found` payload rather than throwing. -/
def runReadNoteTool (readN : Str → Option Str) (path : Str) : ToolOutcome Str :=
  match readN path with
  | none => ToolOutcome.success ("Note not found: ".data ++ path)
  | some content => ToolOutcome.success content

/-! ## read_files slicing (filesystem-mcp, lines 428-453) -/

/-- One section of the `read_files` output: the per-path body is wrapped
in a `## <path>` header, and a per-path failure becomes an inline
`Error:` line instead of an exception. -/
def readFilesSection (oracle : Str → Except Str Str) (root home p : Str) : Str :=
  match resolvePath root home p with
  | Except.error m => "## ".data ++ p ++ "\nError: ".data ++ m
  | Except.ok fp =>
    match oracle fp with
    | Except.error m => "## ".data ++ p ++ "\nError: ".data ++ m
    | Except.ok c => "## ".data ++ p ++ "\n".data ++ c

/-- The `read_files` handler body: `for (const path of paths.slice(0, 10))`
collecting one output section per processed path. -/
def readFilesTool (oracle : Str → Except Str Str) (root home : Str) (paths : List Str) :
    List Str :=
  (paths.take 10).map (readFilesSection oracle root home)

/-! ## Claim theorems -/

/-- C1: the production path confinement resolver must deny an input that
resolves to a sibling of the root sharing a string prefix.  The code's
naive `startsWith` check ACCEPTS `/tmp/rootbackup/secret` under root
`/tmp/root`, while the separator-aware re-implementation in the
repository's own test suite denies it. -/
theorem resolvePath_sibling_escape :
    resolvePath "/tmp/root".data "/home/user".data "/tmp/rootbackup/secret".data
      = Except.ok "/tmp/rootbackup/secret".data ∧
    resolvePathChecked "/tmp/root".data "/home/user".data "/tmp/rootbackup/secret".data
      = Except.error "Access denied: path is outside root directory".data := by
  exact ⟨rfl, rfl⟩

/-- C2 counterexample: for a binary file whose size exceeds the cap the
reader returns `truncated = false`, so the claimed equivalence
`truncated = true ↔ size > cap` fails at cap 1 on the two-byte file
`[0x00, 0x00]`. -/
theorem readFileContent_truncated_iff_fails :
    ¬(((readFileContent 1 [0, 0]).truncated = true) ↔ (([0, 0] : List Nat).length > 1)) := by
  decide

/-- C2 (amended): `truncated = true` exactly when the file exceeds the cap
AND the truncated sample is classified text; text content never exceeds
the cap, and a binary classification always returns the marker with
`truncated = false`. -/
theorem readFileContent_amended (cap : Nat) (bytes : List Nat) :
    ((readFileContent cap bytes).truncated = true ↔
      (bytes.length > cap ∧ isBinaryFile (bytes.take cap) = false)) ∧
    ((readFileContent cap bytes).binary = false →
      contentLen (readFileContent cap bytes).content ≤ cap) ∧
    ((readFileContent cap bytes).binary = true →
      (readFileContent cap bytes).content = ContentVal.binaryMarker ∧
        (readFileContent cap bytes).truncated = false) := by
  unfold readFileContent
  by_cases h1 : bytes.length > cap
  · by_cases h2 : isBinaryFile (bytes.take cap)
    · simp [h1, h2]
    · simp [h1, h2, contentLen, List.length_take]
      try omega
  · have hall : bytes.take cap = bytes := List.take_of_length_le (Nat.le_of_not_lt h1)
    by_cases h2 : isBinaryFile bytes
    · simp [h1, h2, hall]
    · simp [h1, h2, hall, contentLen]
      try omega

/-- C2 amended-claim witness at a concrete text file below the cap. -/
theorem readFileContent_amended_witness :
    contentLen (readFileContent 2 [65, 66]).content ≤ 2 :=
  (readFileContent_amended 2 [65, 66]).2.1 (by decide)

/-- C3: quoting is total and parsing the quoted identifier under the
doubled-quote grammar recovers exactly the input string, double quotes
included. -/
theorem quoteIdentifier_roundtrip (s : Str) : parseQuoted (quoteIdentifier s) = some s :=
  parseQBody_escQ s

/-- C4: on a query whose leading keyword passes the allow-list, a deny-list
keyword occurring as a whole word anywhere makes the gate deny with a
reason naming a matched deny-list keyword, in both SQL adapters; and the
whole-word matching does not flag identifiers that merely contain a
keyword as a substring: `SELECT updated_at FROM users` is allowed by both
gates. -/
theorem gate_denylist_word_match :
    (∀ sql : Str, sqliteStartAllowed sql = true →
      (∃ kw ∈ dangerousSqlite, containsWord kw sql = true) →
      ∃ kw, kw ∈ dangerousSqlite ∧ containsWord kw sql = true ∧
        sqliteGate sql = Except.error ("Query contains forbidden keyword: ".data ++ kw)) ∧
    (∀ q : Str, (∃ kw ∈ dangerousPg, containsWord kw q = true) →
      ∃ kw, kw ∈ dangerousPg ∧ containsWord kw q = true ∧
        pgGate q = Except.error
          ("Error: Query contains forbidden keyword: ".data ++ asciiUpper kw)) ∧
    sqliteGate "SELECT updated_at FROM users".data = Except.ok () ∧
    pgGate "SELECT updated_at FROM users".data = Except.ok () := by
  refine ⟨?_, ?_, by decide, by decide⟩
  · intro sql hstart hex
    cases hfind : dangerousSqlite.find? (fun kw => containsWord kw sql) with
    | none =>
      rcases hex with ⟨kw0, hmem, hcw⟩
      have := List.find?_eq_none.mp hfind kw0 hmem
      simp [hcw] at this
    | some kw =>
      refine ⟨kw, List.mem_of_find?_eq_some hfind, by simpa using List.find?_some hfind, ?_⟩
      simp [sqliteGate, hstart, hfind]
  · intro q hex
    cases hfind : dangerousPg.find? (fun kw => containsWord kw q) with
    | none =>
      rcases hex with ⟨kw0, hmem, hcw⟩
      have := List.find?_eq_none.mp hfind kw0 hmem
      simp [hcw] at this
    | some kw =>
      refine ⟨kw, List.mem_of_find?_eq_some hfind, by simpa using List.find?_some hfind, ?_⟩
      simp [pgGate, hfind]

/-- C4 witness: `SELECT delete FROM t` passes the allow-list check and
contains the deny-list keyword DELETE as a whole word, so the sqlite gate
denies it naming a matched keyword. -/
theorem gate_denylist_word_match_witness :
    ∃ kw, kw ∈ dangerousSqlite ∧ containsWord kw "SELECT delete FROM t".data = true ∧
      sqliteGate "SELECT delete FROM t".data
        = Except.error ("Query contains forbidden keyword: ".data ++ kw) :=
  gate_denylist_word_match.1 "SELECT delete FROM t".data (by decide)
    ⟨"DELETE".data, by decide, by decide⟩

/-- C5 counterexample: the sqlite gate denies the INSERT example at the
allow-list step with the generic message, which does not mention INSERT,
so the claimed "reason mentioning INSERT" fails for the sqlite variant in
the claim's scope. -/
theorem sqlite_insert_reason_lacks_keyword :
    sqliteGate "INSERT INTO users VALUES (1)".data = Except.error
      "Only SELECT, WITH, and EXPLAIN queries are allowed in read-only mode".data ∧
    hasSubstr "INSERT".data
      "Only SELECT, WITH, and EXPLAIN queries are allowed in read-only mode".data = false := by
  exact ⟨by decide, by decide⟩

/-- C5 (amended): a query whose trimmed form does not begin with an
allowed leading keyword is denied by either gate (the empty string
included); `INSERT INTO users VALUES (1)` is denied by both variants, the
pg gate naming INSERT in its reason, the sqlite gate answering with its
generic allow-list message. -/
theorem gate_allowlist_leading_keyword :
    (∀ sql : Str, sqliteStartAllowed sql = false →
      sqliteGate sql = Except.error
        "Only SELECT, WITH, and EXPLAIN queries are allowed in read-only mode".data) ∧
    (∀ q : Str, pgStartAllowed q = false → ∃ m, pgGate q = Except.error m) ∧
    sqliteGate "".data = Except.error
      "Only SELECT, WITH, and EXPLAIN queries are allowed in read-only mode".data ∧
    pgGate "".data = Except.error
      "Error: Only SELECT queries are allowed for safety. Use pg_describe_table for schema info.".data ∧
    pgGate "INSERT INTO users VALUES (1)".data
      = Except.error "Error: Query contains forbidden keyword: INSERT".data ∧
    sqliteGate "INSERT INTO users VALUES (1)".data = Except.error
      "Only SELECT, WITH, and EXPLAIN queries are allowed in read-only mode".data ∧
    hasSubstr "INSERT".data "Error: Query contains forbidden keyword: INSERT".data = true := by
  refine ⟨?_, ?_, by decide, by decide, by decide, by decide, by decide⟩
  · intro sql h
    simp [sqliteGate, h]
  · intro q h
    cases hfind : dangerousPg.find? (fun kw => containsWord kw q) with
    | none =>
      exact ⟨"Error: Only SELECT queries are allowed for safety. Use pg_describe_table for schema info.".data,
        by simp [pgGate, hfind, h]⟩
    | some kw =>
      exact ⟨"Error: Query contains forbidden keyword: ".data ++ asciiUpper kw,
        by simp [pgGate, hfind]⟩

/-- C5 witness: the INSERT example does not begin with an allowed leading
keyword, so the sqlite gate denies it with the allow-list message. -/
theorem gate_allowlist_leading_keyword_witness :
    sqliteGate "INSERT INTO users VALUES (1)".data = Except.error
      "Only SELECT, WITH, and EXPLAIN queries are allowed in read-only mode".data :=
  gate_allowlist_leading_keyword.1 "INSERT INTO users VALUES (1)".data (by decide)

/-- C6: the windower keeps the first `cap` rows in original order, reports
the pre-windowing count, truncation exactly when that count exceeds the
cap, and `items.length = min total cap`; concretely for 150 items at cap
100 and for 50 items at cap 100. -/
theorem windowRows_spec :
    (∀ (α : Type) (cap : Nat) (rows : List α),
      (windowRows cap rows).rows = rows.take cap ∧
      ((windowRows cap rows).rows).length = min (windowRows cap rows).rowCount cap ∧
      (windowRows cap rows).rowCount = rows.length ∧
      ((windowRows cap rows).truncated = true ↔ rows.length > cap)) ∧
    windowRows 100 (List.range 150)
      = { rows := List.range 100, rowCount := 150, truncated := true } ∧
    windowRows 100 (List.range 50)
      = { rows := List.range 50, rowCount := 50, truncated := false } := by
  refine ⟨?_, by decide, by decide⟩
  intro α cap rows
  refine ⟨rfl, ?_, rfl, by simp [windowRows]⟩
  simp [windowRows, List.length_take, Nat.min_comm]

/-- C7: the validator accepts exactly the union of the strict grammar
`^[a-zA-Z_][a-zA-Z0-9_]*$` and the looser grammar `^[a-zA-Z0-9_ -]+$`
(so the numeric-leading `123table` is accepted), and any string
containing one of `; ' " ( ) / \` or a control character is rejected
with the invalid-identifier error. -/
theorem validateIdentifier_grammar :
    (∀ name : Str, (validateIdentifier "table".data name = Except.ok name ↔
      (strictId name = true ∨ looseId name = true))) ∧
    (∀ (kind name : Str) (c : Char), c ∈ name → forbiddenChar c = true →
      validateIdentifier kind name = Except.error
        ("Invalid ".data ++ kind ++ " name: contains disallowed characters".data)) ∧
    validateIdentifier "table".data "123table".data = Except.ok "123table".data := by
  refine ⟨?_, ?_, by decide⟩
  · intro name
    unfold validateIdentifier
    by_cases h1 : strictId name
    · simp [h1]
    · by_cases h2 : looseId name
      · simp [h1, h2]
      · simp [h1, h2]
  · intro kind name c hmem hforb
    have hc := forbiddenChar_not_allowed c hforb
    have hstrict : strictId name = false := by
      cases name with
      | nil => rfl
      | cons c0 t =>
        rcases List.mem_cons.mp hmem with rfl | hmem2
        · have hs : strictStart c = false := by
            have h1 := hc.1
            simp only [strictCont, Bool.or_eq_false_iff] at h1
            exact h1.1
          simp [strictId, hs]
        · have hall : t.all strictCont = false := by
            rw [← Bool.not_eq_true, List.all_eq_true]
            intro hallt
            have h2 := hallt c hmem2
            rw [hc.1] at h2
            exact absurd h2 (by simp)
          simp [strictId, hall]
    have hloose : looseId name = false := by
      have hall : name.all looseChar = false := by
        rw [← Bool.not_eq_true, List.all_eq_true]
        intro hallt
        have h2 := hallt c hmem
        rw [hc.2] at h2
        exact absurd h2 (by simp)
      simp [looseId, hall]
    simp [validateIdentifier, hstrict, hloose]

/-- C7 witness: a semicolon inside the name is rejected with the
invalid-identifier error. -/
theorem validateIdentifier_grammar_witness :
    validateIdentifier "table".data "users;drop".data = Except.error
      ("Invalid ".data ++ "table".data ++ " name: contains disallowed characters".data) :=
  validateIdentifier_grammar.2.1 "table".data "users;drop".data ';' (by decide) (by decide)

/-- C8: at the tool-call boundary of each modelled adapter, validation and
resource errors surface as error-response payloads and every invocation
returns a payload: a gate denial or engine failure in the sqlite query
tool, and a confinement denial or read failure in the filesystem read
tool, become `Error:` texts through the catch-all; the obsidian read tool
answers a missing note with a not-found payload; and the sqlite query
tool always produces some payload. -/
theorem toolBoundary_catches_errors :
    (∀ (db : Str → Except Str (List (List Nat))) (cap : Nat) (sql m : Str),
      sqliteGate sql = Except.error m →
      runQueryTool db cap sql = ToolOutcome.errorText ("Error: ".data ++ m)) ∧
    (∀ (db : Str → Except Str (List (List Nat))) (cap : Nat) (sql e : Str),
      sqliteGate sql = Except.ok () → db sql = Except.error e →
      runQueryTool db cap sql
        = ToolOutcome.errorText ("Error: ".data ++ ("Query failed: ".data ++ e))) ∧
    (∀ (oracle : Str → Except Str Str) (root home path m : Str),
      resolvePath root home path = Except.error m →
      runReadFileTool oracle root home path = ToolOutcome.errorText ("Error: ".data ++ m)) ∧
    (∀ (oracle : Str → Except Str Str) (root home path fp m : Str),
      resolvePath root home path = Except.ok fp → oracle fp = Except.error m →
      runReadFileTool oracle root home path = ToolOutcome.errorText ("Error: ".data ++ m)) ∧
    (∀ (readN : Str → Option Str) (p : Str), readN p = none →
      runReadNoteTool readN p = ToolOutcome.success ("Note not found: ".data ++ p)) ∧
    (∀ (db : Str → Except Str (List (List Nat))) (cap : Nat) (sql : Str),
      (∃ w, runQueryTool db cap sql = ToolOutcome.success w) ∨
        (∃ m, runQueryTool db cap sql = ToolOutcome.errorText m)) := by
  refine ⟨?_, ?_, ?_, ?_, ?_, ?_⟩
  · intro db cap sql m h
    simp [runQueryTool, executeQuery, callBoundary, h]
  · intro db cap sql e h1 h2
    simp [runQueryTool, executeQuery, callBoundary, h1, h2]
  · intro oracle root home path m h
    simp [runReadFileTool, callBoundary, h]
  · intro oracle root home path fp m h1 h2
    simp [runReadFileTool, callBoundary, h1, h2]
  · intro readN p h
    simp [runReadNoteTool, h]
  · intro db cap sql
    cases h : executeQuery db cap sql with
    | ok w => exact Or.inl ⟨w, by simp [runQueryTool, callBoundary, h]⟩
    | error m =>
      exact Or.inr ⟨"Error: ".data ++ m, by simp [runQueryTool, callBoundary, h]⟩

/-- C8 witness: a denied empty query surfaces through the sqlite tool
boundary as an `Error:` payload. -/
theorem toolBoundary_catches_errors_witness :
    runQueryTool (fun _ => Except.error []) 0 "".data = ToolOutcome.errorText
      ("Error: ".data ++
        "Only SELECT, WITH, and EXPLAIN queries are allowed in read-only mode".data) :=
  toolBoundary_catches_errors.1 (fun _ => Except.error []) 0 "".data
    "Only SELECT, WITH, and EXPLAIN queries are allowed in read-only mode".data (by decide)

/-- C9: pg_query appends a LIMIT clause exactly when the lower-cased
trimmed query does not contain the substring `limit` anywhere, so an
allowed query containing it in any position — an identifier like
`rate_limit` included — is executed unchanged, with no row cap. -/
theorem pgSafeQuery_limit_substring :
    (∀ (q : Str) (lim : Nat),
      pgSafeQuery q lim = q ++ " LIMIT ".data ++ (Nat.repr lim).data ↔
        ¬ ∃ a b, asciiLower (trimStr q) = a ++ "limit".data ++ b) ∧
    (∀ (q : Str) (lim : Nat),
      (∃ a b, asciiLower (trimStr q) = a ++ "limit".data ++ b) → pgSafeQuery q lim = q) ∧
    pgSafeQuery "SELECT rate_limit FROM plans".data 100
      = "SELECT rate_limit FROM plans".data ∧
    pgSafeQuery "SELECT a FROM t".data 100 = "SELECT a FROM t LIMIT 100".data := by
  have key : ∀ (q : Str) (lim : Nat),
      (hasSubstr "limit".data (asciiLower (trimStr q)) = true →
        pgSafeQuery q lim = q) ∧
      (hasSubstr "limit".data (asciiLower (trimStr q)) = false →
        pgSafeQuery q lim = q ++ " LIMIT ".data ++ (Nat.repr lim).data) := by
    intro q lim
    constructor
    · intro h; simp [pgSafeQuery, h]
    · intro h; simp [pgSafeQuery, h]
  refine ⟨?_, ?_, by decide, by decide⟩
  · intro q lim
    constructor
    · intro heq hex
      have h : hasSubstr "limit".data (asciiLower (trimStr q)) = true :=
        (hasSubstr_iff _ _).mpr hex
      have hq := (key q lim).1 h
      rw [hq] at heq
      have hlen := congrArg List.length heq
      simp [List.length_append] at hlen
    · intro hnex
      have h : hasSubstr "limit".data (asciiLower (trimStr q)) = false := by
        rw [← Bool.not_eq_true, hasSubstr_iff]
        exact hnex
      exact (key q lim).2 h
  · intro q lim hex
    exact (key q lim).1 ((hasSubstr_iff _ _).mpr hex)

/-- C9 witness: a query containing `limit` inside an identifier is
executed with no LIMIT appended. -/
theorem pgSafeQuery_limit_substring_witness :
    pgSafeQuery "select x from t limit 5".data 100 = "select x from t limit 5".data :=
  pgSafeQuery_limit_substring.2.1 "select x from t limit 5".data 100
    ⟨"select x from t ".data, " 5".data, by decide⟩

/-- C10: the read_files handler processes exactly the first 10 supplied
paths: its output is unchanged by dropping everything after the first 10,
it has `min paths.length 10` sections, and appending further paths to a
10-element list changes nothing — the extras are silently ignored. -/
theorem readFilesTool_first_ten :
    (∀ (oracle : Str → Except Str Str) (root home : Str) (paths : List Str),
      readFilesTool oracle root home paths = readFilesTool oracle root home (paths.take 10) ∧
      (readFilesTool oracle root home paths).length = min paths.length 10) ∧
    (∀ (oracle : Str → Except Str Str) (root home : Str) (ps extra : List Str),
      ps.length = 10 →
      readFilesTool oracle root home (ps ++ extra) = readFilesTool oracle root home ps) := by
  constructor
  · intro oracle root home paths
    constructor
    · simp [readFilesTool, List.take_take]
    · simp [readFilesTool, List.length_take, Nat.min_comm]
  · intro oracle root home ps extra h
    have h1 : (ps ++ extra).take 10 = ps := by
      rw [← h]
      exact List.take_left ps extra
    have h2 : ps.take 10 = ps := List.take_of_length_le (by omega)
    simp [readFilesTool, h1, h2]

/-- C10 witness: an eleventh path produces no output section. -/
theorem readFilesTool_first_ten_witness :
    readFilesTool (fun _ => Except.error []) "/r".data "/h".data
        (List.replicate 10 "a".data ++ ["z".data])
      = readFilesTool (fun _ => Except.error []) "/r".data "/h".data
        (List.replicate 10 "a".data) :=
  readFilesTool_first_ten.2 (fun _ => Except.error []) "/r".data "/h".data
    (List.replicate 10 "a".data) ["z".data] (by decide)
